import Mathlib

/-!
Shallow embedding of `upcoming_api.py` (the Upcoming API client library):
field converters, the method registry, the dispatcher `callMethod`, and the
caching layer `UpcomingCached`.  Machine-level Python details are modelled
explicitly: dictionaries are association lists with replace-or-append update,
`minidom.getAttribute` returns the empty string for a missing attribute, and
Python exceptions are an explicit error type (`UpcomingError` raises carry
their message; raw `IndexError` / `AttributeError` / `ValueError` /
`TypeError` escapes are separate constructors).
-/

/-- Errors a call can raise.  `upcoming msg` is `raise UpcomingError, msg`;
the remaining constructors are raw (unclassified) Python exceptions that
escape from the library. -/
inductive PyError where
  | upcoming : String → PyError
  | indexError : PyError
  | attributeError : PyError
  | valueError : PyError
  | typeError : PyError
deriving DecidableEq

/-- Is the error a classified `UpcomingError` raise (as opposed to a raw
Python exception escaping)? -/
def PyError.isUpcomingError : PyError → Bool
  | .upcoming _ => true
  | _ => false

/-- Typed values produced by the attribute conversion functions. -/
inductive Value where
  | vstr : String → Value
  | vint : Int → Value
  | vbool : Bool → Value
  | vdate : Nat → Nat → Nat → Value
  | vdatetime : Nat → Nat → Nat → Nat → Nat → Nat → Value
  | vtime : Nat → Nat → Nat → Nat → Value
  | vtags : List String → Value
  | vnone : Value
deriving DecidableEq

instance {ε α : Type} [DecidableEq ε] [DecidableEq α] : DecidableEq (Except ε α) := fun a b =>
  match a, b with
  | .ok a, .ok b => decidable_of_iff (a = b) ⟨fun h => h ▸ rfl, fun h => Except.ok.inj h⟩
  | .error a, .error b =>
    decidable_of_iff (a = b) ⟨fun h => h ▸ rfl, fun h => Except.error.inj h⟩
  | .ok _, .error _ => isFalse (fun h => Except.noConfusion h)
  | .error _, .ok _ => isFalse (fun h => Except.noConfusion h)

/-- Python dict update `d[k] = v`: replace the binding in place if the key is
present, else append. -/
def dictSet {α : Type} : List (String × α) → String → α → List (String × α)
  | [], k, v => [(k, v)]
  | (k', v') :: rest, k, v =>
    if k' = k then (k, v) :: rest else (k', v') :: dictSet rest k v

/-- Python dict lookup `d.get(k)`. -/
def dictGet {α : Type} : List (String × α) → String → Option α
  | [], _ => none
  | (k', v') :: rest, k => if k' = k then some v' else dictGet rest k

/-- Sequence a fallible function over a list, failing on the first error
(models a Python loop whose body may raise). -/
def mapExcept {α β : Type} (f : α → Except PyError β) : List α → Except PyError (List β)
  | [] => .ok []
  | a :: as =>
    match f a with
    | .error e => .error e
    | .ok b =>
      match mapExcept f as with
      | .error e => .error e
      | .ok bs => .ok (b :: bs)

/-- Does the character list `s` begin with `p`?  (Python `s.startswith(p)`.) -/
def beginsWith : List Char → List Char → Bool
  | _, [] => true
  | [], _ :: _ => false
  | c :: cs, p :: ps => c = p && beginsWith cs ps

/-- Python `s.split(sep)` for a one-character separator: the empty string
yields a single empty-string piece. -/
def splitOnChar (sep : Char) : List Char → List (List Char)
  | [] => [[]]
  | c :: cs =>
    match splitOnChar sep cs with
    | [] => [[c]]
    | h :: t => if c = sep then [] :: h :: t else (c :: h) :: t

/-- Numeric value of a decimal digit character. -/
def digitVal (c : Char) : Nat := c.toNat - 48

/-- Read a nonempty all-digit character list as a natural number. -/
def digitsToNatAux : List Char → Nat → Option Nat
  | [], acc => some acc
  | c :: cs, acc => if c.isDigit then digitsToNatAux cs (acc * 10 + digitVal c) else none

/-- Read a nonempty all-digit character list as a natural number;
`none` if empty or any character is not a digit. -/
def digitsToNat : List Char → Option Nat
  | [] => none
  | c :: cs => digitsToNatAux (c :: cs) 0

/-- ASCII whitespace test, for Python `int()`'s stripping of surrounding
whitespace. -/
def isSpaceChar (c : Char) : Bool := c = ' ' || c = '\t' || c = '\n' || c = '\r'

/-- Strip leading and trailing whitespace. -/
def trimChars (cs : List Char) : List Char :=
  ((cs.dropWhile isSpaceChar).reverse.dropWhile isSpaceChar).reverse

/-- Python `int(s)`: optional surrounding whitespace, optional sign, then a
nonempty digit string; raises `ValueError` otherwise. -/
def pyIntOfChars (cs : List Char) : Except PyError Int :=
  match trimChars cs with
  | '-' :: rest =>
    match digitsToNat rest with
    | some n => .ok (-(n : Int))
    | none => .error .valueError
  | '+' :: rest =>
    match digitsToNat rest with
    | some n => .ok (n : Int)
    | none => .error .valueError
  | rest =>
    match digitsToNat rest with
    | some n => .ok (n : Int)
    | none => .error .valueError

/-- Python `int(s)` on a string. -/
def pyInt (s : String) : Except PyError Int := pyIntOfChars s.data

/-- Attribute conversion functions have this shape; a converter may raise. -/
abbrev Conv := String → Except PyError Value

/-- Converter `string = lambda s: s.encode('utf8')`: the text itself. -/
def string : Conv := fun s => .ok (.vstr s)

/-- Converter `tag_str = lambda s: s.split(',')`. -/
def tag_str : Conv := fun s =>
  .ok (.vtags ((splitOnChar ',' s.data).map (fun cs => String.mk cs)))

/-- Converter `int`: Python `int()` applied to the attribute. -/
def int : Conv := fun s => (pyInt s).map .vint

/-- Converter `boolean = lambda s: bool(int(s))`. -/
def boolean : Conv := fun s => (pyInt s).map (fun n => .vbool (decide (n ≠ 0)))

/-- Gregorian leap-year test (as `datetime.date` validates). -/
def isLeap (y : Nat) : Bool := (y % 4 == 0 && y % 100 != 0) || y % 400 == 0

/-- Length of a month, as `datetime.date` validates. -/
def daysInMonth (y m : Nat) : Nat :=
  if m == 2 then (if isLeap y then 29 else 28)
  else if m == 4 || m == 6 || m == 9 || m == 11 then 30
  else 31

/-- Argument validation performed by the `datetime.date` constructor. -/
def validDate (y m d : Nat) : Bool :=
  1 ≤ y && y ≤ 9999 && 1 ≤ m && m ≤ 12 && 1 ≤ d && d ≤ daysInMonth y m

/-- Argument validation performed for the time fields of
`datetime.datetime`. -/
def validTime (h mi s : Nat) : Bool := h ≤ 23 && mi ≤ 59 && s ≤ 59

/-- Take exactly `n` digit characters, returning their value and the rest. -/
def takeDigits : Nat → Nat → List Char → Option (Nat × List Char)
  | 0, acc, cs => some (acc, cs)
  | n + 1, acc, c :: cs =>
    if c.isDigit then takeDigits n (acc * 10 + digitVal c) cs else none
  | _ + 1, _, [] => none

/-- Optionally match one two-digit group (a `(\d\x7b2\x7d)?` regex group):
consume two digits when the next two characters are digits, else consume
nothing. -/
def tryTwoDigits : List Char → Option Nat × List Char
  | c1 :: c2 :: rest =>
    if c1.isDigit && c2.isDigit then (some (digitVal c1 * 10 + digitVal c2), rest)
    else (none, c1 :: c2 :: rest)
  | cs => (none, cs)

/-- Optionally consume one specific character (a `c?` regex atom). -/
def skipOpt (ch : Char) : List Char → List Char
  | [] => []
  | c :: cs => if c = ch then cs else c :: cs

/-- Consume one mandatory character, failing if absent. -/
def expect (ch : Char) : List Char → Option (List Char)
  | [] => none
  | c :: cs => if c = ch then some cs else none

/-- The anchored match of the `date` converter's pattern
`(\d\x7b4\x7d)-(\d\x7b2\x7d)-(\d\x7b2\x7d) ?(\d\x7b2\x7d)?:?(\d\x7b2\x7d)?:?(\d\x7b2\x7d)?`
against the start of `s` (greedy matching; trailing input is ignored).
Returns the three mandatory date groups and the three optional time
groups. -/
def regexDate (s : String) : Option (Nat × Nat × Nat × Option Nat × Option Nat × Option Nat) := do
  let (y, cs) ← takeDigits 4 0 s.data
  let cs ← expect '-' cs
  let (mo, cs) ← takeDigits 2 0 cs
  let cs ← expect '-' cs
  let (d, cs) ← takeDigits 2 0 cs
  let cs := skipOpt ' ' cs
  let (h, cs) := tryTwoDigits cs
  let cs := skipOpt ':' cs
  let (mi, cs) := tryTwoDigits cs
  let cs := skipOpt ':' cs
  let (sec, _) := tryTwoDigits cs
  pure (y, mo, d, h, mi, sec)

/-- Converter `date`: regex match (a failed match raises `AttributeError`
from `None.groups()`), drop unmatched groups, then build `datetime.date`
for three groups and `datetime.datetime` otherwise (missing trailing
components default to zero; constructor validation raises `ValueError`). -/
def date (s : String) : Except PyError Value :=
  match regexDate s with
  | none => .error .attributeError
  | some (y, mo, d, h, mi, sec) =>
    match [h, mi, sec].filterMap id with
    | [] => if validDate y mo d then .ok (.vdate y mo d) else .error .valueError
    | [a] =>
      if validDate y mo d && validTime a 0 0 then .ok (.vdatetime y mo d a 0 0)
      else .error .valueError
    | [a, b] =>
      if validDate y mo d && validTime a b 0 then .ok (.vdatetime y mo d a b 0)
      else .error .valueError
    | [a, b, c] =>
      if validDate y mo d && validTime a b c then .ok (.vdatetime y mo d a b c)
      else .error .valueError
    | _ => .error .typeError

/-- Converter `date_or_null`: `None` for an empty string or one starting
with the `0000-` sentinel, else exactly `date`. -/
def date_or_null (s : String) : Except PyError Value :=
  if !s.data.isEmpty && !beginsWith s.data ("0000-".data) then date s else .ok .vnone

/-- The `datetime.time` constructor with explicit arguments and validation. -/
def mkTimeHMS (h m s us : Int) : Except PyError Value :=
  if 0 ≤ h ∧ h ≤ 23 ∧ 0 ≤ m ∧ m ≤ 59 ∧ 0 ≤ s ∧ s ≤ 59 ∧ 0 ≤ us ∧ us ≤ 999999 then
    .ok (.vtime h.toNat m.toNat s.toNat us.toNat)
  else .error .valueError

/-- `datetime.time(*parts)`: up to four positional arguments, missing ones
default to zero; more raise `TypeError`. -/
def mkTime : List Int → Except PyError Value
  | [] => mkTimeHMS 0 0 0 0
  | [h] => mkTimeHMS h 0 0 0
  | [h, m] => mkTimeHMS h m 0 0
  | [h, m, s] => mkTimeHMS h m s 0
  | [h, m, s, us] => mkTimeHMS h m s us
  | _ => .error .typeError

/-- Converter `time_or_null`: `None` for the empty string, else
`datetime.time(*map(int, s.split(':')))`. -/
def time_or_null : Conv := fun s =>
  if s.data.isEmpty then .ok .vnone
  else
    match mapExcept pyIntOfChars (splitOnChar ':' s.data) with
    | .error e => .error e
    | .ok vals => mkTime vals

/-- Returned element tag and attribute conversion rules `TOKEN`. -/
def TOKEN : String × List (String × Conv) :=
  ("token", [("token", string), ("user_id", int), ("user_name", string),
    ("user_username", string)])

/-- Returned element tag and attribute conversion rules `EVENT`. -/
def EVENT : String × List (String × Conv) :=
  ("event", [("id", int), ("name", string), ("tags", tag_str), ("description", string),
    ("start_date", date), ("end_date", date_or_null), ("start_time", time_or_null),
    ("end_time", time_or_null), ("personal", boolean), ("selfpromotion", boolean),
    ("metro_id", string), ("venue_id", int), ("user_id", int), ("category_id", int),
    ("date_posted", date)])

/-- Returned element tag and attribute conversion rules `EVENT_SEARCH_RESULT`
(same as `EVENT` but no tags). -/
def EVENT_SEARCH_RESULT : String × List (String × Conv) :=
  ("event", [("id", int), ("name", string), ("description", string),
    ("start_date", date), ("end_date", date_or_null), ("start_time", time_or_null),
    ("end_time", time_or_null), ("personal", boolean), ("selfpromotion", boolean),
    ("metro_id", string), ("venue_id", int), ("user_id", int), ("category_id", int),
    ("date_posted", date)])

/-- Returned element tag and attribute conversion rules `WATCHLIST_USER`. -/
def WATCHLIST_USER : String × List (String × Conv) :=
  ("user", [("id", int), ("name", string), ("username", string), ("status", string)])

/-- Returned element tag and attribute conversion rules `METRO`. -/
def METRO : String × List (String × Conv) :=
  ("metro", [("id", int), ("name", string), ("code", string), ("state_id", int)])

/-- Returned element tag and attribute conversion rules `METRO_EXTENDED`. -/
def METRO_EXTENDED : String × List (String × Conv) :=
  ("metro", [("id", int), ("name", string), ("code", string), ("state_code", string),
    ("country_code", string), ("url", string), ("state_id", int)])

/-- Returned element tag and attribute conversion rules `METRO_SHORT`. -/
def METRO_SHORT : String × List (String × Conv) :=
  ("metro", [("id", int), ("name", string), ("code", string)])

/-- Returned element tag and attribute conversion rules `STATE`. -/
def STATE : String × List (String × Conv) :=
  ("state", [("id", int), ("name", string), ("code", string)])

/-- Returned element tag and attribute conversion rules `COUNTRY`. -/
def COUNTRY : String × List (String × Conv) :=
  ("country", [("id", int), ("name", string), ("code", string)])

/-- Returned element tag and attribute conversion rules `VENUE`. -/
def VENUE : String × List (String × Conv) :=
  ("venue", [("id", int), ("name", string), ("address", string), ("city", string),
    ("zip", string), ("phone", string), ("url", string), ("description", string),
    ("user_id", int), ("private", boolean)])

/-- Returned element tag and attribute conversion rules `VENUE_SHORT`. -/
def VENUE_SHORT : String × List (String × Conv) :=
  ("venue", [("id", int), ("name", string), ("city", string), ("url", string),
    ("user_id", int), ("private", boolean)])

/-- Returned element tag and attribute conversion rules `VENUE_SEARCH_RESULT`. -/
def VENUE_SEARCH_RESULT : String × List (String × Conv) :=
  ("venue", [("id", int), ("name", string), ("address", string), ("city", string),
    ("state", string), ("zip", string), ("country", string), ("url", string),
    ("description", string), ("user_id", int), ("private", boolean)])

/-- Returned element tag and attribute conversion rules `CATEGORY`. -/
def CATEGORY : String × List (String × Conv) :=
  ("category", [("id", int), ("name", string), ("description", string)])

/-- Returned element tag and attribute conversion rules `WATCHLIST`. -/
def WATCHLIST : String × List (String × Conv) :=
  ("watchlist", [("id", int), ("event_id", int), ("status", string)])

/-- Returned element tag and attribute conversion rules `USER`. -/
def USER : String × List (String × Conv) :=
  ("user", [("id", int), ("name", string), ("username", string), ("zip", string),
    ("photourl", string), ("url", string)])

/-- Returned element tag and attribute conversion rules `WATCHLIST_EVENT`. -/
def WATCHLIST_EVENT : String × List (String × Conv) :=
  ("event", [("username", string), ("status", string), ("id", int), ("name", string),
    ("tags", tag_str), ("description", string), ("start_date", date),
    ("end_date", date_or_null), ("start_time", time_or_null), ("end_time", time_or_null),
    ("personal", boolean), ("metro_id", string), ("venue_id", int), ("user_id", int),
    ("category_id", int)])

/-- One entry of `UPCOMING_METHODS`: HTTP method, required parameter names,
optional parameter names, the returned element description (or `none` for
`'returns': None`), and whether the entry carries the `cachable` flag
(in the source the flag, when present, is always `True`, and the caching
layer only tests its presence). -/
structure MethodMeta where
  http_method : String
  required : List String
  optional : List String
  returns : Option (String × List (String × Conv))
  cachable : Bool

/-- The method registry `UPCOMING_METHODS`, in source order. -/
def UPCOMING_METHODS : List (String × MethodMeta) :=
  [("auth.getToken", ⟨"GET", ["frob"], [], some TOKEN, false⟩),
   ("auth.checkToken", ⟨"GET", ["token"], [], some TOKEN, false⟩),
   ("event.getInfo", ⟨"GET", ["event_id"], ["token"], some EVENT, true⟩),
   ("event.add", ⟨"POST", ["token", "name", "venue_id", "category_id", "start_date"],
     ["end_date", "start_time", "end_time", "description", "personal", "selfpromotion"],
     some EVENT, false⟩),
   ("event.search", ⟨"GET", [],
     ["search_text", "country_id", "state_id", "metro_id", "venue_id", "min_date",
      "max_date", "tags", "per_page", "page", "sort", "token"],
     some EVENT_SEARCH_RESULT, false⟩),
   ("event.getWatchlist", ⟨"GET", ["token", "event_id"], [], some WATCHLIST_USER, false⟩),
   ("metro.getInfo", ⟨"GET", ["metro_id"], [], some METRO, true⟩),
   ("metro.search", ⟨"GET", [], ["search_text", "country_id", "state_id"],
     some METRO_EXTENDED, false⟩),
   ("metro.getMyList", ⟨"GET", ["token"], [], some METRO_SHORT, false⟩),
   ("metro.getList", ⟨"GET", ["state_id"], [], some METRO_SHORT, true⟩),
   ("metro.getStateList", ⟨"GET", ["country_id"], [], some STATE, true⟩),
   ("metro.getCountryList", ⟨"GET", [], [], some COUNTRY, true⟩),
   ("venue.add", ⟨"POST", ["token", "venuename", "venueaddress", "venuecity", "metro_id"],
     ["venuezip", "venuephone", "venueurl", "venuedescription", "private"],
     some VENUE, false⟩),
   ("venue.getInfo", ⟨"GET", ["venue_id"], ["token"], some VENUE, true⟩),
   ("venue.getList", ⟨"GET", ["metro_id"], ["token"], some VENUE_SHORT, false⟩),
   ("venue.search", ⟨"GET", [], ["search_text", "country_id", "state_id", "metro_id", "token"],
     some VENUE_SEARCH_RESULT, false⟩),
   ("category.getList", ⟨"GET", [], [], some CATEGORY, true⟩),
   ("watchlist.getList", ⟨"GET", ["token"], ["min_date", "max_date", "sort"],
     some WATCHLIST, false⟩),
   ("watchlist.add", ⟨"POST", ["token", "event_id"], ["status"],
     some ("watchlist", [("id", int)]), false⟩),
   ("watchlist.remove", ⟨"POST", ["token", "watchlist_id"], [], none, false⟩),
   ("user.getInfo", ⟨"GET", ["user_id"], [], some USER, true⟩),
   ("user.getInfoByUsername", ⟨"GET", ["username"], [], some USER, true⟩),
   ("user.getMetroList", ⟨"GET", ["token"], [], some METRO, false⟩),
   ("user.getWatchlist", ⟨"GET", ["token", "user_id"], [], some WATCHLIST_EVENT, false⟩)]

/-- The `for i in range(len(args)): kw[names[i]] = args[i]` loop of
`callMethod`: write each positional argument over the parameter name at the
same index of `required + optional`; running past the end of the name list
raises `IndexError`. -/
def bindPositional : List String → List String → List (String × String) →
    Except PyError (List (String × String))
  | _, [], kw => .ok kw
  | n :: ns, a :: as, kw => bindPositional ns as (dictSet kw n a)
  | [], _ :: _, _ => .error .indexError

/-- The pure front half of `Upcoming.callMethod`, up to (but not including)
the HTTP request: inject `api_key` and `method` into the keyword mapping,
look the method up in the registry, map positional arguments onto
`required + optional`, and check required arguments.  On success it returns
the registry entry together with the HTTP verb and the merged parameter
mapping that would be form-encoded and sent to the service. -/
def prepare (apiKey method : String) (args : List String) (kw : List (String × String)) :
    Except PyError (MethodMeta × String × List (String × String)) :=
  let kw1 := dictSet kw "api_key" apiKey
  let kw2 := dictSet kw1 "method" method
  match dictGet UPCOMING_METHODS method with
  | none => .error (.upcoming "Invalid method specified")
  | some m =>
    match bindPositional (m.required ++ m.optional) args kw2 with
    | .error e => .error e
    | .ok kw3 =>
      if (m.required ++ ["api_key"]).any (fun r => (dictGet kw3 r).isNone) then
        .error (.upcoming ("Required arguments for " ++ method ++ ": "
          ++ String.intercalate ", " m.required))
      else
        .ok (m, m.http_method, kw3)

/-- One XML element of the parsed response: its tag and its attributes. -/
structure Element where
  tag : String
  attrs : List (String × String)
deriving DecidableEq

/-- The parsed response document: the attributes of the root element
(`dom.firstChild`) and all descendant elements in document order (what
`dom.getElementsByTagName` filters by tag). -/
structure Doc where
  rootAttrs : List (String × String)
  elements : List Element
deriving DecidableEq

/-- `minidom` attribute lookup: the empty string when the attribute is
absent. -/
def getAttr (attrs : List (String × String)) (k : String) : String :=
  (dictGet attrs k).getD ""

/-- `dom.getElementsByTagName(tag)`: the document's elements with that tag,
in document order. -/
def elementsByTag (doc : Doc) (tag : String) : List Element :=
  doc.elements.filter (fun e => e.tag = tag)

/-- Build one result dictionary for a matched element: apply each field's
converter to the element's same-named attribute, in the iteration order of
the conversion table. -/
def buildRecord (e : Element) : List (String × Conv) → List (String × Value) →
    Except PyError (List (String × Value))
  | [], d => .ok d
  | (k, c) :: rest, d =>
    match c (getAttr e.attrs k) with
    | .error err => .error err
    | .ok v => buildRecord e rest (dictSet d k v)

/-- A successful `callMethod` result: `True` for void-returning methods,
else the list of converted result dictionaries. -/
inductive CallResult where
  | bool : Bool → CallResult
  | records : List (List (String × Value)) → CallResult
deriving DecidableEq

/-- The response half of `Upcoming.callMethod`: check the root `stat`
attribute, surface the first `error` element's `msg` (or a generic message)
as an `UpcomingError`, return `True` for a method with `'returns': None`,
and otherwise convert every element matching the returns tag. -/
def handleResponse (m : MethodMeta) (doc : Doc) : Except PyError CallResult :=
  if getAttr doc.rootAttrs "stat" ≠ "ok" then
    match elementsByTag doc "error" with
    | e :: _ => .error (.upcoming (getAttr e.attrs "msg"))
    | [] => .error (.upcoming "Status not OK")
  else
    match m.returns with
    | none => .ok (.bool true)
    | some (tag, convs) =>
      match mapExcept (fun e => buildRecord e convs []) (elementsByTag doc tag) with
      | .error err => .error err
      | .ok recs => .ok (.records recs)

/-- `Upcoming.callMethod`, with the transport and XML parse abstracted into
the response document `doc` the service would answer with: argument
preparation followed by response handling.  Every failure of `prepare`
is raised before any HTTP request is made, so the result then does not
depend on `doc`. -/
def callMethod (apiKey method : String) (args : List String) (kw : List (String × String))
    (doc : Doc) : Except PyError CallResult :=
  match prepare apiKey method args kw with
  | .error e => .error e
  | .ok (m, _, _) => handleResponse m doc

/-- Lexicographic byte order on character lists, as Python compares
strings. -/
def charsLe : List Char → List Char → Bool
  | [], _ => true
  | _ :: _, [] => false
  | a :: as, b :: bs =>
    if a.toNat < b.toNat then true
    else if b.toNat < a.toNat then false
    else charsLe as bs

/-- Python string comparison `a <= b`. -/
def strLe (a b : String) : Bool := charsLe a.data b.data

/-- Python `list.sort()` on strings. -/
def sortStrings (l : List String) : List String :=
  List.insertionSort (fun a b => strLe a b = true) l

/-- `UpcomingCached.makeKey`: stringify and sort the positional arguments
and concatenate them, then append `name+value` pair strings for the keyword
arguments sorted by key.  (The caching layer calls it with the method name
prepended to the positional arguments.) -/
def makeKey (args : List String) (kw : List (String × String)) : String :=
  let s := String.join (sortStrings args)
  let keys := sortStrings (kw.map Prod.fst)
  s ++ String.join (keys.map (fun k => k ++ (dictGet kw k).getD ""))

/-- `UpcomingCached.cachable`: whether the registry entry for the method
carries the `cachable` flag (absent entries or methods are not
cachable). -/
def cachable (method : String) : Bool :=
  match dictGet UPCOMING_METHODS method with
  | some m => m.cachable
  | none => false

/-- Python truthiness of a cached value: `True` is truthy, a record list is
truthy iff nonempty. -/
def truthy : CallResult → Bool
  | .bool b => b
  | .records l => !l.isEmpty

/-- The outcome of one `UpcomingCached.callMethod` invocation: the returned
or raised result, the cache store afterwards, and whether the underlying
dispatcher `Upcoming.callMethod` (hence the transport) was invoked. -/
structure CachedOutcome where
  result : Except PyError CallResult
  cache : List (String × CallResult)
  dispatched : Bool
deriving DecidableEq

/-- The cache-miss path of `UpcomingCached.callMethod`: invoke the
dispatcher, store a successful result under the key, and return it (a raise
propagates without touching the cache). -/
def cachedMiss (apiKey method : String) (args : List String) (kw : List (String × String))
    (cache : List (String × CallResult)) (doc : Doc) (key : String) : CachedOutcome :=
  match callMethod apiKey method args kw doc with
  | .error e => ⟨.error e, cache, true⟩
  | .ok data => ⟨.ok data, dictSet cache key data, true⟩

/-- `UpcomingCached.callMethod` over the `SimpleCache` store: a non-cachable
method delegates directly; a cachable one computes the key, returns a truthy
cached value directly, and otherwise runs the miss path.  (`SimpleCache.get`
returns `None` when the key is absent, and the hit test `if hit:` is
Python truthiness.) -/
def cachedCallMethod (apiKey method : String) (args : List String)
    (kw : List (String × String)) (cache : List (String × CallResult)) (doc : Doc) :
    CachedOutcome :=
  if cachable method then
    let key := makeKey (method :: args) kw
    match dictGet cache key with
    | some hit =>
      if truthy hit then ⟨.ok hit, cache, false⟩
      else cachedMiss apiKey method args kw cache doc key
    | none => cachedMiss apiKey method args kw cache doc key
  else
    ⟨callMethod apiKey method args kw doc, cache, true⟩



/-! Helper lemmas about the dictionary model and positional binding. -/

theorem dictGet_dictSet_self {α : Type} (d : List (String × α)) (k : String) (v : α) :
    dictGet (dictSet d k v) k = some v := by
  induction d with
  | nil => simp [dictSet, dictGet]
  | cons p rest ih =>
    obtain ⟨k', v'⟩ := p
    by_cases h : k' = k
    · simp [dictSet, dictGet, h]
    · simp [dictSet, dictGet, h, ih]

theorem dictGet_dictSet_ne {α : Type} (d : List (String × α)) (k k' : String) (v : α)
    (h : k ≠ k') : dictGet (dictSet d k v) k' = dictGet d k' := by
  induction d with
  | nil => simp [dictSet, dictGet, h]
  | cons p rest ih =>
    obtain ⟨k0, v0⟩ := p
    by_cases h0 : k0 = k
    · subst h0
      simp [dictSet, dictGet, h]
    · simp [dictSet, dictGet, h0, ih]

theorem dictSet_absent {α : Type} (d : List (String × α)) (k : String) (v : α)
    (h : dictGet d k = none) : dictSet d k v = d ++ [(k, v)] := by
  induction d with
  | nil => simp [dictSet]
  | cons p rest ih =>
    obtain ⟨k0, v0⟩ := p
    by_cases h0 : k0 = k
    · simp [dictGet, h0] at h
    · simp [dictGet, h0] at h
      simp [dictSet, h0, ih h]

theorem bindPositional_untouched (names args : List String) (kw kw' : List (String × String))
    (n : String) (hn : n ∉ names) (hok : bindPositional names args kw = .ok kw') :
    dictGet kw' n = dictGet kw n := by
  induction names generalizing args kw with
  | nil =>
    cases args with
    | nil => simp [bindPositional] at hok; subst hok; rfl
    | cons a as => simp [bindPositional] at hok
  | cons m ms ih =>
    cases args with
    | nil => simp [bindPositional] at hok; subst hok; rfl
    | cons a as =>
      simp only [bindPositional] at hok
      have hne : m ≠ n := fun h => hn (h ▸ List.mem_cons_self m ms)
      have := ih as (dictSet kw m a) (fun h => hn (List.mem_cons_of_mem m h)) hok
      rw [this, dictGet_dictSet_ne _ _ _ _ hne]

theorem bindPositional_get (names : List String) (hnd : names.Nodup) :
    ∀ (args : List String) (kw kw' : List (String × String)),
      bindPositional names args kw = .ok kw' →
      ∀ (i : Nat) (hi : i < args.length) (hin : i < names.length),
        dictGet kw' (names.get ⟨i, hin⟩) = some (args.get ⟨i, hi⟩) := by
  induction names with
  | nil => intro args kw kw' _ i _ hin; exact absurd hin (Nat.not_lt_zero i)
  | cons m ms ih =>
    intro args kw kw' hok i hi hin
    cases args with
    | nil => exact absurd hi (Nat.not_lt_zero i)
    | cons a as =>
      simp only [bindPositional] at hok
      rcases List.nodup_cons.mp hnd with ⟨hm, hms⟩
      cases i with
      | zero =>
        have := bindPositional_untouched ms as (dictSet kw m a) kw' m hm hok
        simpa [this] using dictGet_dictSet_self kw m a
      | succ j =>
        exact ih hms as (dictSet kw m a) kw' hok j (Nat.lt_of_succ_lt_succ hi)
          (Nat.lt_of_succ_lt_succ hin)

theorem bindPositional_overflow (names args : List String) (kw : List (String × String))
    (h : names.length < args.length) :
    bindPositional names args kw = .error .indexError := by
  induction names generalizing args kw with
  | nil =>
    cases args with
    | nil => exact absurd h (Nat.lt_irrefl 0)
    | cons a as => rfl
  | cons m ms ih =>
    cases args with
    | nil => exact absurd h (Nat.not_lt_zero _)
    | cons a as =>
      simp only [bindPositional]
      exact ih as (dictSet kw m a) (Nat.lt_of_succ_lt_succ h)

theorem prepare_ok_inv (apiKey method : String) (args : List String)
    (kw : List (String × String)) (m : MethodMeta) (hm : String)
    (p : List (String × String)) (h : prepare apiKey method args kw = .ok (m, hm, p)) :
    dictGet UPCOMING_METHODS method = some m ∧ hm = m.http_method ∧
      bindPositional (m.required ++ m.optional) args
        (dictSet (dictSet kw "api_key" apiKey) "method" method) = .ok p := by
  unfold prepare at h
  cases hl : dictGet UPCOMING_METHODS method with
  | none => simp only [hl] at h; exact Except.noConfusion h
  | some m0 =>
    simp only [hl] at h
    cases hb : bindPositional (m0.required ++ m0.optional) args
        (dictSet (dictSet kw "api_key" apiKey) "method" method) with
    | error e => simp only [hb] at h; exact Except.noConfusion h
    | ok kw3 =>
      simp only [hb] at h
      by_cases hreq : ((m0.required ++ ["api_key"]).any
          (fun r => (dictGet kw3 r).isNone)) = true
      · rw [if_pos hreq] at h; exact Except.noConfusion h
      · rw [if_neg hreq] at h
        have h' := Except.ok.inj h
        have h1 : m0 = m := congrArg Prod.fst h'
        have h2 : m0.http_method = hm := congrArg (fun x => x.2.1) h'
        have h3 : kw3 = p := congrArg (fun x => x.2.2) h'
        subst h1; subst h3
        exact ⟨rfl, h2.symm, hb⟩

theorem mapExcept_ok_length {α β : Type} (f : α → Except PyError β) (l : List α)
    (r : List β) (h : mapExcept f l = .ok r) : r.length = l.length := by
  induction l generalizing r with
  | nil => simp only [mapExcept] at h; cases h; rfl
  | cons a as ih =>
    simp only [mapExcept] at h
    cases hf : f a with
    | error e => rw [hf] at h; exact Except.noConfusion h
    | ok b =>
      rw [hf] at h
      cases hm : mapExcept f as with
      | error e => rw [hm] at h; exact Except.noConfusion h
      | ok bs =>
        rw [hm] at h
        cases h
        simp [ih bs hm]

theorem mapExcept_ok_get {α β : Type} (f : α → Except PyError β) (l : List α)
    (r : List β) (h : mapExcept f l = .ok r) (i : Nat) (hi : i < l.length)
    (hi' : i < r.length) : f (l.get ⟨i, hi⟩) = .ok (r.get ⟨i, hi'⟩) := by
  induction l generalizing r i with
  | nil => exact absurd hi (Nat.not_lt_zero i)
  | cons a as ih =>
    simp only [mapExcept] at h
    cases hf : f a with
    | error e => rw [hf] at h; exact Except.noConfusion h
    | ok b =>
      rw [hf] at h
      cases hm : mapExcept f as with
      | error e => rw [hm] at h; exact Except.noConfusion h
      | ok bs =>
        rw [hm] at h
        cases h
        cases i with
        | zero => simpa using hf
        | succ j => exact ih bs hm j (Nat.lt_of_succ_lt_succ hi) (Nat.lt_of_succ_lt_succ hi')

theorem buildRecord_untouched (e : Element) (convs : List (String × Conv))
    (d d' : List (String × Value)) (k : String) (hk : k ∉ convs.map Prod.fst)
    (h : buildRecord e convs d = .ok d') : dictGet d' k = dictGet d k := by
  induction convs generalizing d with
  | nil => simp only [buildRecord] at h; cases h; rfl
  | cons p rest ih =>
    obtain ⟨k0, c0⟩ := p
    simp only [buildRecord] at h
    cases hc : c0 (getAttr e.attrs k0) with
    | error err => simp only [hc] at h; exact Except.noConfusion h
    | ok v =>
      simp only [hc] at h
      have hk0 : k0 ≠ k := fun hx => hk (by simp [hx])
      have hkr : k ∉ rest.map Prod.fst := fun hx => hk (by simp [hx])
      rw [ih (dictSet d k0 v) hkr h, dictGet_dictSet_ne _ _ _ _ hk0]

theorem buildRecord_keys (e : Element) (convs : List (String × Conv))
    (d d' : List (String × Value)) (hnd : (convs.map Prod.fst).Nodup)
    (hfresh : ∀ k ∈ convs.map Prod.fst, dictGet d k = none)
    (h : buildRecord e convs d = .ok d') :
    d'.map Prod.fst = d.map Prod.fst ++ convs.map Prod.fst := by
  induction convs generalizing d with
  | nil => simp only [buildRecord] at h; cases h; simp
  | cons p rest ih =>
    obtain ⟨k0, c0⟩ := p
    simp only [buildRecord] at h
    cases hc : c0 (getAttr e.attrs k0) with
    | error err => simp only [hc] at h; exact Except.noConfusion h
    | ok v =>
      simp only [hc] at h
      have hk0 : dictGet d k0 = none := hfresh k0 (by simp)
      have hnd2 := List.nodup_cons.mp (show (k0 :: rest.map Prod.fst).Nodup from hnd)
      have hfresh2 : ∀ k ∈ rest.map Prod.fst, dictGet (dictSet d k0 v) k = none := by
        intro k hk
        have hne : k0 ≠ k := fun hx => hnd2.1 (hx ▸ hk)
        rw [dictGet_dictSet_ne _ _ _ _ hne]
        exact hfresh k (by simp [hk])
      have hrec := ih (dictSet d k0 v) hnd2.2 hfresh2 h
      rw [hrec, dictSet_absent d k0 v hk0]
      simp

theorem buildRecord_values (e : Element) (convs : List (String × Conv))
    (d d' : List (String × Value)) (hnd : (convs.map Prod.fst).Nodup)
    (hfresh : ∀ k ∈ convs.map Prod.fst, dictGet d k = none)
    (h : buildRecord e convs d = .ok d') :
    ∀ k c, (k, c) ∈ convs → ∃ v, c (getAttr e.attrs k) = .ok v ∧ dictGet d' k = some v := by
  induction convs generalizing d with
  | nil => intro k c hk; exact absurd hk (List.not_mem_nil _)
  | cons p rest ih =>
    obtain ⟨k0, c0⟩ := p
    intro k c hk
    simp only [buildRecord] at h
    cases hc : c0 (getAttr e.attrs k0) with
    | error err => simp only [hc] at h; exact Except.noConfusion h
    | ok v =>
      simp only [hc] at h
      have hnd2 := List.nodup_cons.mp (show (k0 :: rest.map Prod.fst).Nodup from hnd)
      have hfresh2 : ∀ k1 ∈ rest.map Prod.fst, dictGet (dictSet d k0 v) k1 = none := by
        intro k1 hk1
        have hne : k0 ≠ k1 := fun hx => hnd2.1 (hx ▸ hk1)
        rw [dictGet_dictSet_ne _ _ _ _ hne]
        exact hfresh k1 (by simp [hk1])
      rcases List.mem_cons.mp hk with hhead | htail
      · rw [Prod.mk.injEq] at hhead
        obtain ⟨h1, h2⟩ := hhead
        subst h1; subst h2
        refine ⟨v, hc, ?_⟩
        rw [buildRecord_untouched e rest (dictSet d k v) d' k hnd2.1 h]
        exact dictGet_dictSet_self d k v
      · exact ih (dictSet d k0 v) hnd2.2 hfresh2 h k c htail

theorem charsLe_total (a b : List Char) : charsLe a b = true ∨ charsLe b a = true := by
  induction a generalizing b with
  | nil => left; rfl
  | cons x xs ih =>
    cases b with
    | nil => right; rfl
    | cons y ys =>
      simp only [charsLe]
      rcases Nat.lt_trichotomy x.toNat y.toNat with h | h | h
      · left; simp [h]
      · have hxy : ¬ x.toNat < y.toNat := by omega
        have hyx : ¬ y.toNat < x.toNat := by omega
        rcases ih ys with h2 | h2
        · left; simp [hxy, hyx, h2]
        · right; simp [hxy, hyx, h2]
      · right; simp [h, Nat.lt_asymm h]

theorem charsLe_trans (a b c : List Char) (h1 : charsLe a b = true)
    (h2 : charsLe b c = true) : charsLe a c = true := by
  induction a generalizing b c with
  | nil => rfl
  | cons x xs ih =>
    cases b with
    | nil => simp [charsLe] at h1
    | cons y ys =>
      cases c with
      | nil => simp [charsLe] at h2
      | cons z zs =>
        simp only [charsLe] at h1 h2 ⊢
        rcases Nat.lt_trichotomy x.toNat y.toNat with hxy | hxy | hxy
        · rcases Nat.lt_trichotomy y.toNat z.toNat with hyz | hyz | hyz
          · simp [Nat.lt_trans hxy hyz]
          · simp [hyz ▸ hxy]
          · simp [hyz, Nat.lt_asymm hyz] at h2
        · rcases Nat.lt_trichotomy y.toNat z.toNat with hyz | hyz | hyz
          · simp [hxy ▸ hyz]
          · have hxz : x.toNat = z.toNat := hxy.trans hyz
            have h1' : charsLe xs ys = true := by
              simpa [hxy, Nat.lt_irrefl] using h1
            have h2' : charsLe ys zs = true := by
              simpa [hyz, Nat.lt_irrefl] using h2
            simp [hxz, Nat.lt_irrefl, ih ys zs h1' h2']
          · simp [hyz, Nat.lt_asymm hyz] at h2
        · simp [hxy, Nat.lt_asymm hxy] at h1

theorem charsLe_antisymm (a b : List Char) (h1 : charsLe a b = true)
    (h2 : charsLe b a = true) : a = b := by
  induction a generalizing b with
  | nil =>
    cases b with
    | nil => rfl
    | cons y ys => simp [charsLe] at h2
  | cons x xs ih =>
    cases b with
    | nil => simp [charsLe] at h1
    | cons y ys =>
      simp only [charsLe] at h1 h2
      rcases Nat.lt_trichotomy x.toNat y.toNat with h | h | h
      · simp [h, Nat.lt_asymm h] at h2
      · have h1' : charsLe xs ys = true := by simpa [h, Nat.lt_irrefl] using h1
        have h2' : charsLe ys xs = true := by simpa [h, Nat.lt_irrefl] using h2
        have hchar : x = y := Char.eq_of_val_eq (UInt32.ext h)
        rw [hchar, ih ys h1' h2']
      · simp [h, Nat.lt_asymm h] at h1

instance : IsTotal String (fun a b => strLe a b = true) :=
  ⟨fun a b => charsLe_total a.data b.data⟩

instance : IsTrans String (fun a b => strLe a b = true) :=
  ⟨fun a b c => charsLe_trans a.data b.data c.data⟩

instance : IsAntisymm String (fun a b => strLe a b = true) :=
  ⟨fun a b h1 h2 => by
    have := charsLe_antisymm a.data b.data h1 h2
    cases a; cases b; exact congrArg String.mk this⟩

theorem sortStrings_perm_eq (l l' : List String) (h : l.Perm l') :
    sortStrings l = sortStrings l' := by
  have hp : (sortStrings l).Perm (sortStrings l') :=
    ((List.perm_insertionSort _ l).trans h).trans (List.perm_insertionSort _ l').symm
  have hs1 : List.Sorted (fun a b => strLe a b = true) (sortStrings l) :=
    List.sorted_insertionSort _ l
  have hs2 : List.Sorted (fun a b => strLe a b = true) (sortStrings l') :=
    List.sorted_insertionSort _ l'
  exact List.eq_of_perm_of_sorted hp hs1 hs2

theorem date_never_vnone (s : String) (v : Value) (h : date s = .ok v) : v ≠ .vnone := by
  unfold date at h
  split at h
  · exact Except.noConfusion h
  · split at h <;> try split_ifs at h
    all_goals first
      | exact Except.noConfusion h
      | (injection h with h2; subst h2; intro hv; exact Value.noConfusion hv)

theorem bindPositional_nil_args (names : List String) (kw : List (String × String)) :
    bindPositional names [] kw = .ok kw := by
  cases names <;> rfl

theorem dictGet_isSome_dictSet {α : Type} (d : List (String × α)) (k k' : String) (v : α)
    (h : (dictGet d k).isSome) : (dictGet (dictSet d k' v) k).isSome := by
  by_cases he : k' = k
  · subst he; rw [dictGet_dictSet_self]; rfl
  · rw [dictGet_dictSet_ne _ _ _ _ he]; exact h

theorem bindPositional_isSome (names args : List String) (kw kw' : List (String × String))
    (k : String) (hok : bindPositional names args kw = .ok kw')
    (h : (dictGet kw k).isSome) : (dictGet kw' k).isSome := by
  induction names generalizing args kw with
  | nil =>
    cases args with
    | nil => cases hok; exact h
    | cons a as => exact Except.noConfusion hok
  | cons m ms ih =>
    cases args with
    | nil => cases hok; exact h
    | cons a as =>
      exact ih as (dictSet kw m a) hok (dictGet_isSome_dictSet kw k m a h)

/-- C6: a method name absent from the registry makes `callMethod` fail with
the invalid-method `UpcomingError`, whatever positional or named arguments
are supplied and whatever the service would have answered (the lookup
happens before argument mapping, validation and the transport call). -/
theorem callMethod_invalid_method (apiKey method : String) (args : List String)
    (kw : List (String × String)) (doc : Doc)
    (h : dictGet UPCOMING_METHODS method = none) :
    callMethod apiKey method args kw doc = .error (.upcoming "Invalid method specified") := by
  unfold callMethod prepare
  simp only [h]

theorem callMethod_invalid_method_witness :
    callMethod "KEY" "event.frobnicate" ["1"] [("x", "y")] ⟨[("stat", "ok")], []⟩ =
      .error (.upcoming "Invalid method specified") :=
  callMethod_invalid_method "KEY" "event.frobnicate" ["1"] [("x", "y")]
    ⟨[("stat", "ok")], []⟩ rfl

/-- C10: more positional arguments than `required + optional` has names makes
`callMethod` raise a raw `IndexError` (not a classified `UpcomingError`),
whatever the service would have answered: the loop indexes the name list
without a bounds guard, before validation and before any transport call. -/
theorem callMethod_positional_overflow (apiKey method : String) (args : List String)
    (kw : List (String × String)) (m : MethodMeta)
    (hm : dictGet UPCOMING_METHODS method = some m)
    (hlen : (m.required ++ m.optional).length < args.length) :
    (∀ doc, callMethod apiKey method args kw doc = .error .indexError)
    ∧ PyError.isUpcomingError .indexError = false := by
  constructor
  · intro doc
    unfold callMethod prepare
    simp only [hm, bindPositional_overflow _ _ _ hlen]
  · rfl

theorem callMethod_positional_overflow_witness :
    callMethod "KEY" "event.getInfo" ["1", "2", "3"] [] ⟨[("stat", "ok")], []⟩ =
      .error .indexError :=
  (callMethod_positional_overflow "KEY" "event.getInfo" ["1", "2", "3"] []
    ⟨"GET", ["event_id"], ["token"], some EVENT, true⟩ rfl (by decide)).1
    ⟨[("stat", "ok")], []⟩

/-- C3: once arguments are merged, a registered method call that leaves any
name of `required` (plus the implicitly injected `api_key`) unbound fails
with the missing-arguments `UpcomingError` naming the method and its
required list, whatever the service would have answered (no transport call
is needed); and a call with no positional and no named arguments to a
method with an empty required list passes the validation, because the API
key is injected implicitly. -/
theorem callMethod_missing_arguments (apiKey method : String) (args : List String)
    (kw kw3 : List (String × String)) (m : MethodMeta)
    (hm : dictGet UPCOMING_METHODS method = some m)
    (hb : bindPositional (m.required ++ m.optional) args
      (dictSet (dictSet kw "api_key" apiKey) "method" method) = .ok kw3) :
    ((∃ r ∈ m.required ++ ["api_key"], dictGet kw3 r = none) →
      ∀ doc, callMethod apiKey method args kw doc =
        .error (.upcoming ("Required arguments for " ++ method ++ ": "
          ++ String.intercalate ", " m.required)))
    ∧ (m.required = [] →
        ∃ p, prepare apiKey method [] [] = .ok (m, m.http_method, p)) := by
  constructor
  · rintro ⟨r, hr, hnone⟩ doc
    have hany : ((m.required ++ ["api_key"]).any fun r => (dictGet kw3 r).isNone) = true :=
      List.any_eq_true.mpr ⟨r, hr, by simp [hnone]⟩
    unfold callMethod prepare
    simp only [hm, hb, hany]
    rfl
  · intro hreq0
    refine ⟨dictSet (dictSet [] "api_key" apiKey) "method" method, ?_⟩
    unfold prepare
    simp only [hm, bindPositional_nil_args, hreq0]
    rfl

theorem callMethod_missing_arguments_witness :
    callMethod "KEY" "auth.getToken" [] [] ⟨[("stat", "ok")], []⟩ =
      .error (.upcoming "Required arguments for auth.getToken: frob") :=
  (callMethod_missing_arguments "KEY" "auth.getToken" [] []
    [("api_key", "KEY"), ("method", "auth.getToken")]
    ⟨"GET", ["frob"], [], some TOKEN, false⟩ rfl rfl).1
    ⟨"frob", by decide, rfl⟩ ⟨[("stat", "ok")], []⟩

/-- C4: when the parsed response's root `stat` attribute is not "ok", the
call fails with an `UpcomingError` carrying exactly the `msg` attribute of
the first `error` element when one is present, and the generic
"Status not OK" message when none is; no records are returned in either
case (the result is the raised error, and once `prepare` succeeded the
whole `callMethod` result is exactly this response handling). -/
theorem callMethod_status_not_ok (m : MethodMeta) (doc : Doc)
    (hstat : getAttr doc.rootAttrs "stat" ≠ "ok") :
    (∀ e rest, elementsByTag doc "error" = e :: rest →
      handleResponse m doc = .error (.upcoming (getAttr e.attrs "msg")))
    ∧ (elementsByTag doc "error" = [] →
      handleResponse m doc = .error (.upcoming "Status not OK"))
    ∧ (∀ apiKey method args kw hm2 p,
        prepare apiKey method args kw = .ok (m, hm2, p) →
        callMethod apiKey method args kw doc = handleResponse m doc) := by
  refine ⟨?_, ?_, ?_⟩
  · intro e rest he
    unfold handleResponse
    rw [if_pos hstat, he]
  · intro he
    unfold handleResponse
    rw [if_pos hstat, he]
  · intro apiKey method args kw hm2 p hp
    unfold callMethod
    rw [hp]

theorem callMethod_status_not_ok_witness :
    handleResponse ⟨"GET", ["frob"], [], some TOKEN, false⟩
      ⟨[("stat", "fail")], [⟨"error", [("code", "100"), ("msg", "Invalid API key")]⟩]⟩ =
      .error (.upcoming "Invalid API key") :=
  (callMethod_status_not_ok ⟨"GET", ["frob"], [], some TOKEN, false⟩
    ⟨[("stat", "fail")], [⟨"error", [("code", "100"), ("msg", "Invalid API key")]⟩]⟩
    (by decide)).1
    ⟨"error", [("code", "100"), ("msg", "Invalid API key")]⟩ [] rfl

/-- C5: on a response whose root `stat` is "ok", a method with
`'returns': None` yields the boolean `True` sentinel; otherwise the call
returns one record per document element matching the returns tag, in
document order, each record's key list being exactly the converter table's
keys and each value the field's converter applied to the element's
same-named attribute; zero matching elements yield the empty list, not an
error. -/
theorem callMethod_success_records (m : MethodMeta) (doc : Doc)
    (hstat : getAttr doc.rootAttrs "stat" = "ok") :
    (m.returns = none → handleResponse m doc = .ok (.bool true))
    ∧ (∀ tag convs, m.returns = some (tag, convs) →
        (elementsByTag doc tag = [] → handleResponse m doc = .ok (.records []))
        ∧ ((convs.map Prod.fst).Nodup →
            ∀ recs, handleResponse m doc = .ok (.records recs) →
              recs.length = (elementsByTag doc tag).length
              ∧ (∀ r ∈ recs, r.map Prod.fst = convs.map Prod.fst)
              ∧ (∀ (i : Nat) (hi : i < recs.length)
                  (hi' : i < (elementsByTag doc tag).length) (k : String) (c : Conv),
                  (k, c) ∈ convs →
                  ∃ v, c (getAttr ((elementsByTag doc tag).get ⟨i, hi'⟩).attrs k) = .ok v
                    ∧ dictGet (recs.get ⟨i, hi⟩) k = some v))) := by
  constructor
  · intro hret
    unfold handleResponse
    rw [if_neg (by simp [hstat]), hret]
  · intro tag convs hret
    constructor
    · intro he
      unfold handleResponse
      rw [if_neg (by simp [hstat])]
      simp only [hret]
      rw [he]
      rfl
    · intro hnd recs hresp
      unfold handleResponse at hresp
      rw [if_neg (by simp [hstat])] at hresp
      simp only [hret] at hresp
      cases hmap : mapExcept (fun e => buildRecord e convs []) (elementsByTag doc tag) with
      | error err => simp only [hmap] at hresp; exact Except.noConfusion hresp
      | ok recs0 =>
        simp only [hmap] at hresp
        have hr0 : recs0 = recs := CallResult.records.inj (Except.ok.inj hresp)
        subst hr0
        have hlen := mapExcept_ok_length _ _ _ hmap
        refine ⟨hlen, ?_, ?_⟩
        · intro r hr
          rcases List.mem_iff_get.mp hr with ⟨⟨i, hilt⟩, hn⟩
          have hi' : i < (elementsByTag doc tag).length := hlen ▸ hilt
          have hb := mapExcept_ok_get _ _ _ hmap i hi' hilt
          rw [hn] at hb
          have hkeys := buildRecord_keys _ convs [] r hnd (fun k _ => rfl) hb
          simpa using hkeys
        · intro i hi hi' k c hkc
          have hb := mapExcept_ok_get _ _ _ hmap i hi' hi
          exact buildRecord_values _ convs [] _ hnd (fun k _ => rfl) hb k c hkc

theorem callMethod_success_records_witness :
    ([[("id", Value.vint 5), ("name", Value.vstr "Ontario"), ("code", Value.vstr "ON")]]
        : List (List (String × Value))).length =
      (elementsByTag
        ⟨[("stat", "ok")], [⟨"state", [("id", "5"), ("name", "Ontario"), ("code", "ON")]⟩]⟩
        "state").length :=
  (((callMethod_success_records ⟨"GET", ["country_id"], [], some STATE, true⟩
      ⟨[("stat", "ok")], [⟨"state", [("id", "5"), ("name", "Ontario"), ("code", "ON")]⟩]⟩
      rfl).2 "state" [("id", int), ("name", string), ("code", string)] rfl).2
    (by decide)
    [[("id", Value.vint 5), ("name", Value.vstr "Ontario"), ("code", Value.vstr "ON")]]
    rfl).1

/-- C7: a non-cachable method delegates directly to the dispatcher with no
cache read or write; for a cachable method a truthy cached value under the
computed key is returned with no dispatcher (hence no transport) invocation,
a missing key invokes the dispatcher, stores its successful result under the
key and returns it, and a stored falsy value (such as an empty record list)
is treated exactly like a miss: the dispatcher is invoked again. -/
theorem cachedCallMethod_spec (apiKey method : String) (args : List String)
    (kw : List (String × String)) (cache : List (String × CallResult)) (doc : Doc) :
    (cachable method = false →
      cachedCallMethod apiKey method args kw cache doc =
        ⟨callMethod apiKey method args kw doc, cache, true⟩)
    ∧ (cachable method = true →
        (∀ hit, dictGet cache (makeKey (method :: args) kw) = some hit →
          truthy hit = true →
          cachedCallMethod apiKey method args kw cache doc = ⟨.ok hit, cache, false⟩)
        ∧ (dictGet cache (makeKey (method :: args) kw) = none →
            ∀ data, callMethod apiKey method args kw doc = .ok data →
              cachedCallMethod apiKey method args kw cache doc =
                ⟨.ok data, dictSet cache (makeKey (method :: args) kw) data, true⟩)
        ∧ (∀ hit, dictGet cache (makeKey (method :: args) kw) = some hit →
            truthy hit = false →
            (cachedCallMethod apiKey method args kw cache doc).dispatched = true
            ∧ cachedCallMethod apiKey method args kw cache doc =
                cachedMiss apiKey method args kw cache doc
                  (makeKey (method :: args) kw))) := by
  refine ⟨?_, fun hc => ⟨?_, ?_, ?_⟩⟩
  · intro h
    simp [cachedCallMethod, h]
  · intro hit hget htr
    simp [cachedCallMethod, hc, hget, htr]
  · intro hget data hcall
    simp [cachedCallMethod, cachedMiss, hc, hget, hcall]
  · intro hit hget htr
    have heq : cachedCallMethod apiKey method args kw cache doc =
        cachedMiss apiKey method args kw cache doc (makeKey (method :: args) kw) := by
      simp [cachedCallMethod, hc, hget, htr]
    refine ⟨?_, heq⟩
    rw [heq]
    unfold cachedMiss
    cases hcm : callMethod apiKey method args kw doc <;> simp [hcm]

theorem cachedCallMethod_spec_witness :
    cachedCallMethod "K" "venue.getInfo" ["28279"] []
      [("28279venue.getInfo", .records [[("id", Value.vint 28279)]])]
      ⟨[("stat", "fail")], []⟩ =
      ⟨.ok (.records [[("id", Value.vint 28279)]]),
        [("28279venue.getInfo", .records [[("id", Value.vint 28279)]])], false⟩ :=
  ((cachedCallMethod_spec "K" "venue.getInfo" ["28279"] []
      [("28279venue.getInfo", .records [[("id", Value.vint 28279)]])]
      ⟨[("stat", "fail")], []⟩).2 rfl).1
    (.records [[("id", Value.vint 28279)]]) rfl rfl

/-- C2 counterexample: the caching layer computes the key with the method
name sorted together with the stringified positional arguments, so for
`venue.getInfo("28279")` the key is "28279venue.getInfo": the method name is
not a prefix of the whole key, refuting the claimed key shape. -/
theorem makeKey_method_prefix_counterexample :
    makeKey ("venue.getInfo" :: ["28279"]) [] = "28279venue.getInfo"
    ∧ ("28279venue.getInfo" : String).take ("venue.getInfo" : String).length ≠ "venue.getInfo"
    ∧ ("28279venue.getInfo" : String) ≠ "venue.getInfo" ++ "28279" :=
  ⟨rfl, by decide, by decide⟩

/-- C2 (amended): the cache key stringifies the method name together with
the positional arguments, sorts those strings lexically and concatenates
them, then appends the named arguments as name+value pair strings sorted by
key (the method name is sorted among the argument strings, not kept as a
prefix); consequently two calls with the same arguments in different
positional order or different named-argument order produce the identical
cache key. -/
theorem makeKey_deterministic (method : String) (args args' : List String)
    (kw kw' : List (String × String)) (hargs : args.Perm args')
    (hkeys : (kw.map Prod.fst).Perm (kw'.map Prod.fst))
    (hvals : ∀ k, dictGet kw k = dictGet kw' k) :
    makeKey (method :: args) kw = makeKey (method :: args') kw' := by
  unfold makeKey
  have h1 : sortStrings (method :: args) = sortStrings (method :: args') :=
    sortStrings_perm_eq _ _ (List.Perm.cons method hargs)
  have h2 : sortStrings (kw.map Prod.fst) = sortStrings (kw'.map Prod.fst) :=
    sortStrings_perm_eq _ _ hkeys
  have h3 : (fun k => k ++ (dictGet kw k).getD "") =
      (fun k => k ++ (dictGet kw' k).getD "") :=
    funext fun k => by rw [hvals k]
  rw [h1, h2, h3]

theorem makeKey_deterministic_witness :
    makeKey ("venue.getInfo" :: ["1", "2"]) [("b", "2"), ("a", "1")] =
      makeKey ("venue.getInfo" :: ["2", "1"]) [("b", "2"), ("a", "1")] :=
  makeKey_deterministic "venue.getInfo" ["1", "2"] ["2", "1"]
    [("b", "2"), ("a", "1")] [("b", "2"), ("a", "1")]
    (List.Perm.swap "2" "1" []) (List.Perm.refl _) (fun _ => rfl)

/-- C1 counterexample: `event.getInfo` called with the value "111" in
positional position 0 (binding to `event_id`) and the named argument
`event_id="222"` merges to `event_id="111"`: the positional value, not the
named one, wins in the parameter mapping sent to the service, because the
positional loop writes over the keyword dictionary after the named
arguments are already in it. -/
theorem positional_overwrites_named_counterexample :
    prepare "KEY" "event.getInfo" ["111"] [("event_id", "222")] =
      .ok (⟨"GET", ["event_id"], ["token"], some EVENT, true⟩, "GET",
        [("event_id", "111"), ("api_key", "KEY"), ("method", "event.getInfo")])
    ∧ dictGet [("event_id", "111"), ("api_key", "KEY"), ("method", "event.getInfo")]
        "event_id" = some "111"
    ∧ ("111" : String) ≠ "222" :=
  ⟨rfl, rfl, by decide⟩

/-- C1 (amended): positional argument `i` binds to the `i`-th name of the
method's `required + optional` list, and when the same parameter name
receives both a positional and a named value the positional value wins
(named arguments are recorded first, then positional assignments overwrite
them); a value passed positionally to `event.search` binds to `search_text`
(its first optional name) and yields the same merged parameter mapping as
the explicit keyword call. -/
theorem callMethod_positional_binding :
    (∀ (apiKey method : String) (args : List String) (kw : List (String × String))
        (m : MethodMeta) (hm : String) (p : List (String × String)),
      prepare apiKey method args kw = .ok (m, hm, p) →
      (m.required ++ m.optional).Nodup →
      ∀ (i : Nat) (hi : i < args.length) (hin : i < (m.required ++ m.optional).length),
        dictGet p ((m.required ++ m.optional).get ⟨i, hin⟩) = some (args.get ⟨i, hi⟩))
    ∧ (∀ apiKey : String, ∃ m : MethodMeta,
        prepare apiKey "event.search" ["flickr"] [] =
          .ok (m, "GET", [("api_key", apiKey), ("method", "event.search"),
            ("search_text", "flickr")])
        ∧ prepare apiKey "event.search" [] [("search_text", "flickr")] =
          .ok (m, "GET", [("search_text", "flickr"), ("api_key", apiKey),
            ("method", "event.search")])
        ∧ dictGet [("api_key", apiKey), ("method", "event.search"),
            ("search_text", "flickr")] "search_text" = some "flickr"
        ∧ ∀ k, dictGet [("api_key", apiKey), ("method", "event.search"),
              ("search_text", "flickr")] k =
            dictGet [("search_text", "flickr"), ("api_key", apiKey),
              ("method", "event.search")] k) := by
  constructor
  · intro apiKey method args kw m hm p hp hnd i hi hin
    obtain ⟨_, _, hb⟩ := prepare_ok_inv apiKey method args kw m hm p hp
    exact bindPositional_get (m.required ++ m.optional) hnd args _ p hb i hi hin
  · intro apiKey
    refine ⟨⟨"GET", [],
      ["search_text", "country_id", "state_id", "metro_id", "venue_id", "min_date",
       "max_date", "tags", "per_page", "page", "sort", "token"],
      some EVENT_SEARCH_RESULT, false⟩, rfl, rfl, rfl, ?_⟩
    intro k
    by_cases h1 : ("api_key" : String) = k
    · subst h1; rfl
    · by_cases h2 : ("method" : String) = k
      · subst h2; rfl
      · by_cases h3 : ("search_text" : String) = k
        · subst h3; rfl
        · simp [dictGet, h1, h2, h3]

theorem callMethod_positional_binding_witness :
    dictGet [("event_id", "111"), ("api_key", "KEY"), ("method", "event.getInfo")]
      "event_id" = some "111" :=
  callMethod_positional_binding.1 "KEY" "event.getInfo" ["111"] [("event_id", "222")]
    ⟨"GET", ["event_id"], ["token"], some EVENT, true⟩ "GET"
    [("event_id", "111"), ("api_key", "KEY"), ("method", "event.getInfo")]
    rfl (by decide) 0 (by decide) (by decide)

/-- C8 counterexample: on malformed input the `date` converter fails, but
with a raw uncaught `AttributeError` (the regex match returns no object and
`.groups()` is called on `None`), not with any classified conversion error:
no `ConversionError` class exists in the code, whose only error class is
`UpcomingError`. -/
theorem date_malformed_unclassified_counterexample :
    date "garbage" = .error .attributeError
    ∧ PyError.isUpcomingError .attributeError = false :=
  ⟨rfl, rfl⟩

/-- C8 (amended): the `date` converter parses `YYYY-MM-DD` with optional
trailing time components into a date-only value exactly when no time group
matched and a date-time value when any did ("2006-07-27" yields
date(2006,7,27)), and fails on malformed input — though with a raw
`AttributeError`, not a classified conversion error. -/
theorem date_parse_spec :
    date "2006-07-27" = .ok (.vdate 2006 7 27)
    ∧ date "2006-06-08 12:00:36" = .ok (.vdatetime 2006 6 8 12 0 36)
    ∧ (∀ s, regexDate s = none → date s = .error .attributeError)
    ∧ (∀ (s : String) (y mo d : Nat) (h mi sec : Option Nat),
        regexDate s = some (y, mo, d, h, mi, sec) →
        ∀ v, date s = .ok v →
          ((∃ a b c, v = .vdate a b c) ↔ (h = none ∧ mi = none ∧ sec = none))) := by
  refine ⟨rfl, rfl, ?_, ?_⟩
  · intro s hr
    unfold date
    rw [hr]
  · intro s y mo d h mi sec hr v hv
    unfold date at hv
    simp only [hr] at hv
    rcases h with _ | a <;> rcases mi with _ | b <;> rcases sec with _ | c <;>
        simp only [List.filterMap_cons, List.filterMap_nil, id_eq] at hv <;>
        split_ifs at hv <;>
        first
          | exact Except.noConfusion hv
          | (injection hv with hv2; subst hv2; simp)

theorem date_parse_spec_witness : date "xyz" = .error .attributeError :=
  date_parse_spec.2.2.1 "xyz" rfl

/-- C9: `date_or_null` returns the null sentinel exactly when its input is
the empty string or begins with "0000-" (so `date_or_null("0000-00-00")` is
null), and on every other input returns precisely what the `date` converter
returns on it. -/
theorem date_or_null_spec (s : String) :
    ((s.data = [] ∨ beginsWith s.data ("0000-".data) = true) → date_or_null s = .ok .vnone)
    ∧ (s.data ≠ [] → beginsWith s.data ("0000-".data) = false → date_or_null s = date s)
    ∧ (date_or_null s = .ok .vnone →
        (s.data = [] ∨ beginsWith s.data ("0000-".data) = true)) := by
  have hpass : s.data ≠ [] → beginsWith s.data ("0000-".data) = false →
      date_or_null s = date s := by
    intro h1 h2
    have hie : s.data.isEmpty = false := by
      cases hs : s.data with
      | nil => exact absurd hs h1
      | cons c cs => rfl
    unfold date_or_null
    rw [if_pos]
    simp [hie, h2]
  refine ⟨?_, hpass, ?_⟩
  · intro h
    rcases h with h | h
    · simp [date_or_null, h]
    · simp [date_or_null, h]
  · intro h
    by_cases hie : s.data = []
    · exact Or.inl hie
    · by_cases hbw : beginsWith s.data ("0000-".data) = true
      · exact Or.inr hbw
      · exfalso
        have hbw' : beginsWith s.data ("0000-".data) = false := by
          cases hb : beginsWith s.data ("0000-".data) with
          | false => rfl
          | true => exact absurd hb hbw
        rw [hpass hie hbw'] at h
        exact date_never_vnone s _ h rfl

theorem date_or_null_spec_witness : date_or_null "0000-00-00" = .ok .vnone :=
  (date_or_null_spec "0000-00-00").1 (Or.inr rfl)
